import Mathlib

/-!
Verification development for the Federated Drug Trial Eligibility Screener.

This file gives a shallow embedding, in Lean 4, of the two subsystems that the
specification singles out: the eligibility screening / pagination engine of
`src/api/main.py`, and the asynchronous blockchain audit logger of
`src/federated_screener/blockchain/logger.py`.  Python numbers (ints/floats)
are modelled as `ℤ`/`ℚ`, Python `None` as `Option`, wall-clock readings and
externally generated transaction hashes are passed in as explicit parameters,
and the mutable state of the logger / throttle is threaded explicitly.
-/

namespace FDTES

/-! ## Eligibility data model (src/api/main.py) -/

/-- A patient record, restricted to the fields read by the eligibility code.
Python `patient.get("age")` returning `None` is `none`; `patient.get("gender", "")`
returning a missing value is the empty string. -/
structure Patient where
  disease : String := ""
  age : Option ℚ := none
  gender : String := ""
  blood_group : String := ""
  bmi : Option ℚ := none
  stage : String := ""
  comorbidities : List String := []
  hospital_name : String := ""
  deriving Repr, DecidableEq

instance : Inhabited Patient := ⟨{}⟩

/-- Trial parameter dictionary built by `_build_trial_params_for_disease`.
A `none` range models a missing/falsy `ageRange`/`bmiRange` entry (Python
`trial_params.get("ageRange")` being falsy). -/
structure TrialParams where
  ageRange : Option (ℚ × ℚ) := none
  genders : List String := []
  bloodGroups : List String := []
  bmiRange : Option (ℚ × ℚ) := none
  stages : List String := []
  commonComorbidities : List String := []
  deriving Repr, DecidableEq

/-- Helper for the two numeric checks of `_compute_eligibility`: the check
fires (disqualifies) only when both the patient value is present and the
params carry a (truthy) range, and the value lies outside `[lo, hi]`. -/
def rangeViolated (v : Option ℚ) (r : Option (ℚ × ℚ)) : Bool :=
  match v, r with
  | some x, some p => ¬(p.1 ≤ x ∧ x ≤ p.2)
  | _, _ => false

/-- Embedding of `_compute_eligibility(patient, trial_params)` from
`src/api/main.py`.  Each `if ...: return False` of the source becomes one
branch; a check is skipped when the patient value is absent (`None`) or falsy
(empty string), or when the params do not restrict that field. -/
def _compute_eligibility (patient : Patient) (trial_params : TrialParams) : Bool :=
  if rangeViolated patient.age trial_params.ageRange then false
  else if trial_params.genders ≠ [] ∧ patient.gender ≠ "" ∧
      patient.gender ∉ trial_params.genders then false
  else if trial_params.bloodGroups ≠ [] ∧ patient.blood_group ≠ "" ∧
      patient.blood_group ∉ trial_params.bloodGroups then false
  else if rangeViolated patient.bmi trial_params.bmiRange then false
  else if trial_params.stages ≠ [] ∧ patient.stage ≠ "" ∧
      patient.stage ∉ trial_params.stages then false
  else true

/-- C10 — in `_compute_eligibility`, empty-string `gender`, `blood_group` and
`stage` values are skipped by the membership checks exactly like absent values,
so a patient whose three string fields are empty and whose `age` and `bmi` are
null is classified eligible under every parameter set. -/
theorem empty_string_fields_never_disqualify (params : TrialParams) :
    _compute_eligibility ⟨"", none, "", "", none, "", [], ""⟩ params = true := by
  simp [_compute_eligibility, rangeViolated]

/-! ## Eligibility classification loop (get_eligible_patients_for_drug) -/

/-- Embedding of the `for i, patient in enumerate(all_p)` loop of
`get_eligible_patients_for_drug`: each index goes to the eligible list or the
not-eligible list according to `_compute_eligibility`, preserving input order.
`i` is the index of the first patient of the remaining list. -/
def classifyLoop : List Patient → TrialParams → ℕ → List ℕ × List ℕ
  | [], _, _ => ([], [])
  | p :: rest, params, i =>
    let r := classifyLoop rest params (i + 1)
    if _compute_eligibility p params then (i :: r.1, r.2) else (r.1, i :: r.2)

theorem classifyLoop_length (P : List Patient) (params : TrialParams) :
    ∀ i, (classifyLoop P params i).1.length + (classifyLoop P params i).2.length
      = P.length := by
  induction P with
  | nil => intro i; simp [classifyLoop]
  | cons p rest ih =>
    intro i
    have h := ih (i + 1)
    simp only [classifyLoop]
    split <;> simp only [List.length_cons] <;> omega

theorem classifyLoop_bounds (P : List Patient) (params : TrialParams) :
    ∀ i j, (j ∈ (classifyLoop P params i).1 ∨ j ∈ (classifyLoop P params i).2) →
      i ≤ j ∧ j < i + P.length := by
  induction P with
  | nil => intro i j h; simp [classifyLoop] at h
  | cons p rest ih =>
    intro i j h
    simp only [classifyLoop, List.length_cons] at h ⊢
    split at h <;> simp only [List.mem_cons] at h
    · rcases h with (rfl | h1) | h2
      · omega
      · have := ih (i + 1) j (Or.inl h1); omega
      · have := ih (i + 1) j (Or.inr h2); omega
    · rcases h with h1 | (rfl | h2)
      · have := ih (i + 1) j (Or.inl h1); omega
      · omega
      · have := ih (i + 1) j (Or.inr h2); omega

theorem classifyLoop_cover (P : List Patient) (params : TrialParams) :
    ∀ i j, i ≤ j → j < i + P.length →
      j ∈ (classifyLoop P params i).1 ∨ j ∈ (classifyLoop P params i).2 := by
  induction P with
  | nil => intro i j h1 h2; simp at h2; omega
  | cons p rest ih =>
    intro i j h1 h2
    simp only [classifyLoop]
    rcases eq_or_lt_of_le h1 with rfl | hlt
    · split <;> simp
    · have := ih (i + 1) j (by omega) (by simp at h2 ⊢; omega)
      split <;> simp <;> tauto

theorem classifyLoop_disjoint (P : List Patient) (params : TrialParams) :
    ∀ i j, ¬(j ∈ (classifyLoop P params i).1 ∧ j ∈ (classifyLoop P params i).2) := by
  induction P with
  | nil => intro i j h; simp [classifyLoop] at h
  | cons p rest ih =>
    intro i j h
    simp only [classifyLoop] at h
    split at h <;> simp only [List.mem_cons] at h
    · rcases h with ⟨rfl | h1, h2⟩
      · exact absurd (classifyLoop_bounds rest params (j + 1) j (Or.inr h2)).1 (by omega)
      · exact ih (i + 1) j ⟨h1, h2⟩
    · rcases h with ⟨h1, rfl | h2⟩
      · exact absurd (classifyLoop_bounds rest params (j + 1) j (Or.inl h1)).1 (by omega)
      · exact ih (i + 1) j ⟨h1, h2⟩

/-! ## Trial parameter builder (_build_trial_params_for_disease) -/

/-- Python `min` over a non-empty list; the `[]` case is unreachable in the
source (`min(ages)` is only evaluated under `if ages`). -/
def pyMin (l : List ℚ) : ℚ :=
  match l with
  | [] => 0
  | x :: xs => xs.foldl min x

/-- Python `max` over a non-empty list; `[]` unreachable as for `pyMin`. -/
def pyMax (l : List ℚ) : ℚ :=
  match l with
  | [] => 0
  | x :: xs => xs.foldl max x

theorem foldl_min_le_foldl_max (xs : List ℚ) :
    ∀ a b : ℚ, a ≤ b → xs.foldl min a ≤ xs.foldl max b := by
  induction xs with
  | nil => intro a b h; simpa using h
  | cons x xs ih =>
    intro a b h
    simp only [List.foldl_cons]
    exact ih _ _ (le_trans (min_le_left a x) (le_trans h (le_max_left b x)))

theorem pyMin_le_pyMax (l : List ℚ) (h : l ≠ []) : pyMin l ≤ pyMax l := by
  cases l with
  | nil => exact absurd rfl h
  | cons x xs => exact foldl_min_le_foldl_max xs x x le_rfl

/-- Round-half-to-even on rationals: the rounding used by Python 3 `round`. -/
def roundHalfEven (q : ℚ) : ℤ :=
  if q - ⌊q⌋ < 1/2 then ⌊q⌋
  else if 1/2 < q - ⌊q⌋ then ⌊q⌋ + 1
  else if ⌊q⌋ % 2 = 0 then ⌊q⌋ else ⌊q⌋ + 1

/-- Python `round(x, 1)`: round-half-to-even to one decimal digit. -/
def pyRound1 (q : ℚ) : ℚ := (roundHalfEven (q * 10) : ℚ) / 10

theorem roundHalfEven_ge_floor (q : ℚ) : ⌊q⌋ ≤ roundHalfEven q := by
  unfold roundHalfEven; split_ifs <;> omega

theorem roundHalfEven_le_floor_add_one (q : ℚ) : roundHalfEven q ≤ ⌊q⌋ + 1 := by
  unfold roundHalfEven; split_ifs <;> omega

theorem roundHalfEven_mono {a b : ℚ} (h : a ≤ b) :
    roundHalfEven a ≤ roundHalfEven b := by
  have hf : ⌊a⌋ ≤ ⌊b⌋ := Int.floor_le_floor h
  rcases lt_or_eq_of_le hf with hlt | heq
  · calc roundHalfEven a ≤ ⌊a⌋ + 1 := roundHalfEven_le_floor_add_one a
      _ ≤ ⌊b⌋ := by omega
      _ ≤ roundHalfEven b := roundHalfEven_ge_floor b
  · unfold roundHalfEven
    rw [← heq]
    split_ifs <;> first | omega | linarith

theorem pyRound1_mono {a b : ℚ} (h : a ≤ b) : pyRound1 a ≤ pyRound1 b := by
  unfold pyRound1
  have h1 : roundHalfEven (a * 10) ≤ roundHalfEven (b * 10) :=
    roundHalfEven_mono (by linarith)
  have h2 : ((roundHalfEven (a * 10) : ℚ)) ≤ ((roundHalfEven (b * 10) : ℚ)) := by
    exact_mod_cast h1
  linarith

/-- The patients of the population whose `disease` field equals the target. -/
def matchingFor (all_patients : List Patient) (disease : String) : List Patient :=
  all_patients.filter (fun p => p.disease = disease)

/-- The `ages` accumulator: present (non-`None`) ages of matching patients. -/
def agesFor (all_patients : List Patient) (disease : String) : List ℚ :=
  (matchingFor all_patients disease).filterMap (fun p => p.age)

/-- The `bmis` accumulator: present BMI values of matching patients. -/
def bmisFor (all_patients : List Patient) (disease : String) : List ℚ :=
  (matchingFor all_patients disease).filterMap (fun p => p.bmi)

/-- The `genders` set accumulator: truthy (non-empty) gender strings. -/
def gendersFor (all_patients : List Patient) (disease : String) : Finset String :=
  (matchingFor all_patients disease).foldl
    (fun s p => if p.gender ≠ "" then insert p.gender s else s) ∅

/-- The `blood_groups` set accumulator. -/
def bloodGroupsFor (all_patients : List Patient) (disease : String) : Finset String :=
  (matchingFor all_patients disease).foldl
    (fun s p => if p.blood_group ≠ "" then insert p.blood_group s else s) ∅

/-- The `stages` set accumulator. -/
def stagesFor (all_patients : List Patient) (disease : String) : Finset String :=
  (matchingFor all_patients disease).foldl
    (fun s p => if p.stage ≠ "" then insert p.stage s else s) ∅

/-- The `comorbidities` accumulator: concatenation of the matching patients'
comorbidity token lists (`comorbidities.extend(c)`). -/
def comorbiditiesFor (all_patients : List Patient) (disease : String) : List String :=
  (matchingFor all_patients disease).foldl (fun acc p => acc ++ p.comorbidities) []

/-- Keys of `comorbidity_counts` in Python dict insertion order: the tokens in
order of first occurrence. -/
def firstOccurrences (l : List String) : List String :=
  l.foldl (fun acc c => if c ∈ acc then acc else acc ++ [c]) []

/-- Top-5 comorbidity tokens by descending frequency;
`sorted(..., key=counts.get, reverse=True)` is a stable descending sort over
the insertion-ordered keys. -/
def topComorbidities (coms : List String) : List String :=
  ((firstOccurrences coms).mergeSort (fun a b => coms.count b ≤ coms.count a)).take 5

/-- Embedding of `_build_trial_params_for_disease(all_patients, disease)` from
`src/api/main.py`: a single pass over the disease-matching patients, with the
documented defaults when an accumulator saw no observations. -/
def _build_trial_params_for_disease (all_patients : List Patient)
    (disease : String) : TrialParams :=
  let ages := agesFor all_patients disease
  let bmis := bmisFor all_patients disease
  let genders := gendersFor all_patients disease
  let blood_groups := bloodGroupsFor all_patients disease
  let stages := stagesFor all_patients disease
  { ageRange := if ages = [] then some (18, 85) else some (pyMin ages, pyMax ages)
    genders := if genders = ∅ then ["Male", "Female"] else genders.sort (· ≤ ·)
    bloodGroups := if blood_groups = ∅ then [] else blood_groups.sort (· ≤ ·)
    bmiRange := if bmis = [] then some (15, 40)
      else some (pyRound1 (pyMin bmis), pyRound1 (pyMax bmis))
    stages := if stages = ∅ then [] else stages.sort (· ≤ ·)
    commonComorbidities := topComorbidities (comorbiditiesFor all_patients disease) }

/-- C6 — `_build_trial_params_for_disease` always returns an age range and a
BMI range with `min ≤ max`, and empty accumulators fall back to the documented
defaults: age `[18, 85]`, genders `[Male, Female]`, BMI `[15, 40]`, and empty
(unrestricted) blood-group and stage lists. -/
theorem build_trial_params_ranges_and_defaults (P : List Patient) (D : String) :
    (∃ lo hi, (_build_trial_params_for_disease P D).ageRange = some (lo, hi) ∧ lo ≤ hi) ∧
    (∃ lo hi, (_build_trial_params_for_disease P D).bmiRange = some (lo, hi) ∧ lo ≤ hi) ∧
    (agesFor P D = [] → (_build_trial_params_for_disease P D).ageRange = some (18, 85)) ∧
    (gendersFor P D = ∅ → (_build_trial_params_for_disease P D).genders = ["Male", "Female"]) ∧
    (bmisFor P D = [] → (_build_trial_params_for_disease P D).bmiRange = some (15, 40)) ∧
    (bloodGroupsFor P D = ∅ → (_build_trial_params_for_disease P D).bloodGroups = []) ∧
    (stagesFor P D = ∅ → (_build_trial_params_for_disease P D).stages = []) := by
  refine ⟨?_, ?_, ?_, ?_, ?_, ?_, ?_⟩ <;>
    simp only [_build_trial_params_for_disease]
  · by_cases h : agesFor P D = []
    · exact ⟨18, 85, by simp [h], by norm_num⟩
    · exact ⟨pyMin (agesFor P D), pyMax (agesFor P D), by simp [h],
        pyMin_le_pyMax _ h⟩
  · by_cases h : bmisFor P D = []
    · exact ⟨15, 40, by simp [h], by norm_num⟩
    · exact ⟨pyRound1 (pyMin (bmisFor P D)), pyRound1 (pyMax (bmisFor P D)),
        by simp [h], pyRound1_mono (pyMin_le_pyMax _ h)⟩
  · intro h; simp [h]
  · intro h; simp [h]
  · intro h; simp [h]
  · intro h; simp [h]
  · intro h; simp [h]

/-- Concrete instance of C6: the defaults on an empty population. -/
theorem build_trial_params_ranges_and_defaults_witness :
    (_build_trial_params_for_disease [] "Heart Disease").ageRange = some (18, 85) ∧
    (_build_trial_params_for_disease [] "Heart Disease").genders = ["Male", "Female"] ∧
    (_build_trial_params_for_disease [] "Heart Disease").bmiRange = some (15, 40) ∧
    (_build_trial_params_for_disease [] "Heart Disease").bloodGroups = [] ∧
    (_build_trial_params_for_disease [] "Heart Disease").stages = [] := by
  have h := build_trial_params_ranges_and_defaults [] "Heart Disease"
  exact ⟨h.2.2.1 rfl, h.2.2.2.1 rfl, h.2.2.2.2.1 rfl, h.2.2.2.2.2.1 rfl,
    h.2.2.2.2.2.2 rfl⟩

/-! ## Pagination and anonymization (GET /trials/drug/eligible) -/

/-- Python `f"{n:05d}"` for `n ≥ 0`: decimal digits left-padded with zeros to
at least five characters. -/
def zfill5 (n : ℕ) : String :=
  let s := toString n
  String.mk (List.replicate (5 - s.length) '0') ++ s

/-- The anonymous identifier `f"ANON-{n:05d}"`. -/
def anonId (n : ℕ) : String := "ANON-" ++ zfill5 n

/-- A returned row: the anonymized identifier plus the underlying record (the
dynamic privacy column projection of the source keeps a subset of the medical
fields and is not further modelled; it does not affect row count or ids). -/
structure Row where
  patient_id : String
  source : Patient
  deriving Repr, DecidableEq

/-- The fields of the JSON object returned by `get_eligible_patients_for_drug`
that the verified claims read. -/
structure EligibleResponse where
  patients : List Row
  eligible_count : ℕ
  not_eligible_count : ℕ
  hospital_eligible_count : ℕ
  hospital_not_eligible_count : ℕ
  hospital_total : ℕ
  page : ℤ
  page_size : ℤ
  total_pages : ℤ
  deriving Repr

/-- Embedding of the body of `get_eligible_patients_for_drug` from
`src/api/main.py`.  The caller-supplied `drug_name` is resolved to a disease
through the trials collection (an external store), so the resolved `disease`
is a parameter here; an absent `hospital` query parameter is the empty string
(falsy, like Python `None`).  `total_pages` uses integer floor division
`-(-total_for_tab // page_size)` (here `Int.fdiv`), exactly as the source. -/
def get_eligible_patients_for_drug (all_p : List Patient) (disease : String)
    (hospital : String) (page0 page_size0 : ℤ) (tab : String) : EligibleResponse :=
  let page_size : ℤ := min (max page_size0 10) 200
  let page : ℤ := max page0 1
  let trial_params := _build_trial_params_for_disease all_p disease
  let classified := classifyLoop all_p trial_params 0
  let eligible_ids := classified.1
  let not_eligible_ids := classified.2
  let eligible_count := eligible_ids.length
  let not_eligible_count := not_eligible_ids.length
  let hospital_total :=
    (all_p.filter (fun p => hospital ≠ "" ∧ p.hospital_name = hospital)).length
  let hospital_eligible_count :=
    (all_p.filter (fun p => (hospital ≠ "" ∧ p.hospital_name = hospital) ∧
      _compute_eligibility p trial_params = true)).length
  let hospital_not_eligible_count :=
    (all_p.filter (fun p => (hospital ≠ "" ∧ p.hospital_name = hospital) ∧
      _compute_eligibility p trial_params = false)).length
  let ids := if tab = "eligible" then eligible_ids else not_eligible_ids
  let total_for_tab := if tab = "eligible" then eligible_count else not_eligible_count
  let start : ℕ := ((page - 1) * page_size).toNat
  let page_ids := (ids.drop start).take page_size.toNat
  let total_pages : ℤ := max 1 (-((-(total_for_tab : ℤ)).fdiv page_size))
  let page_patients_raw := page_ids.map (fun i => all_p.getD i default)
  let page_patients := page_patients_raw.enum.map
    (fun ip => Row.mk (anonId (start + ip.1 + 1)) ip.2)
  { patients := page_patients
    eligible_count := eligible_count
    not_eligible_count := not_eligible_count
    hospital_eligible_count := hospital_eligible_count
    hospital_not_eligible_count := hospital_not_eligible_count
    hospital_total := hospital_total
    page := page
    page_size := page_size
    total_pages := total_pages }

/-- Size of the partition selected by `tab` (the `total_for_tab` of the source). -/
def tabCount (all_p : List Patient) (disease tab : String) : ℕ :=
  let classified := classifyLoop all_p (_build_trial_params_for_disease all_p disease) 0
  if tab = "eligible" then classified.1.length else classified.2.length

/-- C5 — the eligibility scan partitions the population completely and
disjointly: `eligible_count + not_eligible_count` returned by the endpoint
equals the population size for every drug, hospital, tab, page and page size,
and every index lands in exactly one of the two index lists. -/
theorem eligibility_partition_complete_disjoint (all_p : List Patient)
    (disease hospital tab : String) (page0 page_size0 : ℤ) :
    (get_eligible_patients_for_drug all_p disease hospital page0 page_size0 tab).eligible_count
      + (get_eligible_patients_for_drug all_p disease hospital page0 page_size0 tab).not_eligible_count
      = all_p.length ∧
    (∀ j, j < all_p.length →
      (j ∈ (classifyLoop all_p (_build_trial_params_for_disease all_p disease) 0).1 ∨
        j ∈ (classifyLoop all_p (_build_trial_params_for_disease all_p disease) 0).2) ∧
      ¬(j ∈ (classifyLoop all_p (_build_trial_params_for_disease all_p disease) 0).1 ∧
        j ∈ (classifyLoop all_p (_build_trial_params_for_disease all_p disease) 0).2)) := by
  constructor
  · simpa [get_eligible_patients_for_drug] using
      classifyLoop_length all_p (_build_trial_params_for_disease all_p disease) 0
  · intro j hj
    exact ⟨classifyLoop_cover all_p _ 0 j (Nat.zero_le j) (by omega),
      classifyLoop_disjoint all_p _ 0 j⟩

/-- Concrete instance of C5 on a one-patient population. -/
theorem eligibility_partition_complete_disjoint_witness :
    (get_eligible_patients_for_drug [⟨"D", none, "", "", none, "", [], ""⟩]
        "D" "" 1 50 "eligible").eligible_count
      + (get_eligible_patients_for_drug [⟨"D", none, "", "", none, "", [], ""⟩]
        "D" "" 1 50 "eligible").not_eligible_count = 1 ∧
    (0 ∈ (classifyLoop [⟨"D", none, "", "", none, "", [], ""⟩]
        (_build_trial_params_for_disease [⟨"D", none, "", "", none, "", [], ""⟩] "D") 0).1 ∨
      0 ∈ (classifyLoop [⟨"D", none, "", "", none, "", [], ""⟩]
        (_build_trial_params_for_disease [⟨"D", none, "", "", none, "", [], ""⟩] "D") 0).2) := by
  have h := eligibility_partition_complete_disjoint
    [⟨"D", none, "", "", none, "", [], ""⟩] "D" "" "eligible" 1 50
  exact ⟨h.1, (h.2 0 (by norm_num)).1⟩

/-- Spec-side formula for C7: `max(1, ceil(N / page_size))`, written with the
usual natural-number ceiling division, to be compared with the source's
`max(1, -(-total_for_tab // page_size))`. -/
def specTotalPages (N ps : ℕ) : ℕ := max 1 ((N + ps - 1) / ps)

theorem lt_succ_div_mul (a b : ℕ) (h : 0 < b) : a < (a / b + 1) * b := by
  have h1 := Nat.div_add_mod a b
  have h2 := Nat.mod_lt a h
  calc a = b * (a / b) + a % b := h1.symm
    _ < b * (a / b) + b := by omega
    _ = (a / b + 1) * b := by ring

theorem int_neg_succ_ediv (n ps : ℕ) (h : 0 < ps) :
    (-((n : ℤ) + 1)) / (ps : ℤ) = -(((n / ps : ℕ) : ℤ)) - 1 := by
  have hps : ((ps : ℤ)) ≠ 0 := by positivity
  have hn : (n : ℤ) = (ps : ℤ) * ((n / ps : ℕ) : ℤ) + ((n % ps : ℕ) : ℤ) := by
    exact_mod_cast (Nat.div_add_mod n ps).symm
  have hr : ((n % ps : ℕ) : ℤ) < (ps : ℤ) := by exact_mod_cast Nat.mod_lt n h
  have hr0 : (0 : ℤ) ≤ ((n % ps : ℕ) : ℤ) := by positivity
  have hsplit : (-((n : ℤ) + 1)) =
      (-(((n % ps : ℕ) : ℤ) + 1)) + (-(((n / ps : ℕ) : ℤ))) * (ps : ℤ) := by
    rw [hn]; ring
  have hneg1 : (-(((n % ps : ℕ) : ℤ) + 1)) / (ps : ℤ) = -1 := by
    have h0 : ((ps : ℤ) - (((n % ps : ℕ) : ℤ) + 1)) / (ps : ℤ) = 0 :=
      Int.ediv_eq_zero_of_lt (by omega) (by omega)
    have h1 : ((ps : ℤ) - (((n % ps : ℕ) : ℤ) + 1)) =
        (-(((n % ps : ℕ) : ℤ) + 1)) + 1 * (ps : ℤ) := by ring
    rw [h1, Int.add_mul_ediv_right _ _ hps] at h0
    omega
  rw [hsplit, Int.add_mul_ediv_right _ _ hps, hneg1]
  ring

/-- The source's `-(-N // ps)` (floor division on integers) computes the
ceiling `(N + ps - 1) / ps` for a natural `N` and positive `ps`. -/
theorem neg_fdiv_neg_eq_ceil (N ps : ℕ) (h : 0 < ps) :
    -((-(N : ℤ)).fdiv (ps : ℤ)) = (((N + ps - 1) / ps : ℕ) : ℤ) := by
  rw [Int.fdiv_eq_ediv _ (by positivity)]
  rcases N with _ | n
  · simp [Nat.div_eq_of_lt (by omega : ps - 1 < ps)]
  · have hstep : (n + 1 + ps - 1) / ps = n / ps + 1 := by
      have : n + 1 + ps - 1 = n + ps := by omega
      rw [this, Nat.add_div_right _ h]
    rw [hstep]
    have := int_neg_succ_ediv n ps h
    push_cast at this ⊢
    omega

theorem specTotalPages_bounds (N ps : ℕ) (h : 0 < ps) :
    (specTotalPages N ps - 1) * ps ≤ N ∧ N ≤ specTotalPages N ps * ps := by
  unfold specTotalPages
  rcases Nat.eq_zero_or_pos N with rfl | hN
  · simp [Nat.div_eq_of_lt (by omega : ps - 1 < ps)]
  · have hN1 : N + ps - 1 = (N - 1) + ps := by omega
    rw [hN1, Nat.add_div_right _ h]
    have hmax : max 1 ((N - 1) / ps + 1) = (N - 1) / ps + 1 :=
      Nat.max_eq_right (Nat.succ_le_succ (Nat.zero_le _))
    rw [hmax]
    constructor
    · rw [Nat.add_sub_cancel]
      exact le_trans (Nat.div_mul_le_self (N - 1) ps) (by omega)
    · exact Nat.le_of_pred_lt (lt_succ_div_mul (N - 1) ps h)

/-- C7 — `page_size` is clamped to `[10, 200]` and `page` to a minimum of 1;
`total_pages` equals `max(1, ceil(N / page_size))` with the clamped page size;
and requesting the last page returns exactly `N - (total_pages - 1) *
page_size` rows, a count that never exceeds `page_size` (and is never
negative: `(total_pages - 1) * page_size ≤ N`). -/
theorem pagination_clamps_and_last_page_count (all_p : List Patient)
    (disease hospital tab : String) (page0 page_size0 : ℤ) :
    (10 ≤ (get_eligible_patients_for_drug all_p disease hospital page0 page_size0 tab).page_size ∧
      (get_eligible_patients_for_drug all_p disease hospital page0 page_size0 tab).page_size ≤ 200) ∧
    1 ≤ (get_eligible_patients_for_drug all_p disease hospital page0 page_size0 tab).page ∧
    (get_eligible_patients_for_drug all_p disease hospital page0 page_size0 tab).total_pages
      = ((specTotalPages (tabCount all_p disease tab)
          ((min (max page_size0 10) 200).toNat) : ℕ) : ℤ) ∧
    (specTotalPages (tabCount all_p disease tab) ((min (max page_size0 10) 200).toNat) - 1)
        * (min (max page_size0 10) 200).toNat ≤ tabCount all_p disease tab ∧
    tabCount all_p disease tab
        - (specTotalPages (tabCount all_p disease tab) ((min (max page_size0 10) 200).toNat) - 1)
          * (min (max page_size0 10) 200).toNat
      ≤ (min (max page_size0 10) 200).toNat ∧
    (get_eligible_patients_for_drug all_p disease hospital
        ((specTotalPages (tabCount all_p disease tab)
          ((min (max page_size0 10) 200).toNat) : ℕ) : ℤ) page_size0 tab).patients.length
      = tabCount all_p disease tab
        - (specTotalPages (tabCount all_p disease tab) ((min (max page_size0 10) 200).toNat) - 1)
          * (min (max page_size0 10) 200).toNat := by
  set psZ : ℤ := min (max page_size0 10) 200 with hpsZ
  have hps10 : 10 ≤ psZ := by omega
  have hps200 : psZ ≤ 200 := by omega
  set ps : ℕ := psZ.toNat with hps
  have hps0 : 0 < ps := by omega
  have hcast : ((ps : ℕ) : ℤ) = psZ := by omega
  set N : ℕ := tabCount all_p disease tab with hN
  have hbounds := specTotalPages_bounds N ps hps0
  set tp : ℕ := specTotalPages N ps with htp
  have htp1 : 1 ≤ tp := le_max_left _ _
  have hexp : tp * ps = (tp - 1) * ps + ps := by
    have h1 : tp = (tp - 1) + 1 := by omega
    calc tp * ps = ((tp - 1) + 1) * ps := by rw [← h1]
      _ = (tp - 1) * ps + ps := by ring
  have hlen : ∀ pg : ℤ,
      (get_eligible_patients_for_drug all_p disease hospital pg page_size0 tab).patients.length
        = min ps (N - ((max pg 1 - 1) * psZ).toNat) := by
    intro pg
    simp only [get_eligible_patients_for_drug, List.length_map, List.enum_length,
      List.length_take, List.length_drop]
    congr 1
    rw [hN, tabCount]
    split <;> rfl
  refine ⟨⟨?_, ?_⟩, ?_, ?_, hbounds.1, ?_, ?_⟩
  · simp only [get_eligible_patients_for_drug]; omega
  · simp only [get_eligible_patients_for_drug]; omega
  · simp only [get_eligible_patients_for_drug]; omega
  · simp only [get_eligible_patients_for_drug]
    have hform := neg_fdiv_neg_eq_ceil N ps hps0
    rw [hcast] at hform
    have heq : (if tab = "eligible"
        then (classifyLoop all_p (_build_trial_params_for_disease all_p disease) 0).1.length
        else (classifyLoop all_p (_build_trial_params_for_disease all_p disease) 0).2.length)
        = N := by rw [hN, tabCount]
    rw [heq, hform, htp, specTotalPages]
    push_cast
    omega
  · omega
  · rw [hlen ((tp : ℕ) : ℤ)]
    have hmax : max ((tp : ℕ) : ℤ) 1 = (tp : ℕ) := by omega
    rw [hmax]
    have htoNat : ((((tp : ℕ) : ℤ) - 1) * psZ).toNat = (tp - 1) * ps := by
      have h2 : (((tp : ℕ) : ℤ) - 1) = (((tp - 1 : ℕ)) : ℤ) := by omega
      rw [← hcast, h2, ← Nat.cast_mul, Int.toNat_natCast]
    rw [htoNat]
    exact Nat.min_eq_right (by omega)

/-- Concrete instance of C7: empty population, requested page 3, size 7. -/
theorem pagination_clamps_and_last_page_count_witness :
    (get_eligible_patients_for_drug [] "D" "" 3 7 "eligible").total_pages
      = ((specTotalPages (tabCount [] "D" "eligible") ((min (max (7:ℤ) 10) 200).toNat) : ℕ) : ℤ) ∧
    (get_eligible_patients_for_drug [] "D"  ""
        ((specTotalPages (tabCount [] "D" "eligible") ((min (max (7:ℤ) 10) 200).toNat) : ℕ) : ℤ)
        7 "eligible").patients.length
      = tabCount [] "D" "eligible"
        - (specTotalPages (tabCount [] "D" "eligible") ((min (max (7:ℤ) 10) 200).toNat) - 1)
          * (min (max (7:ℤ) 10) 200).toNat := by
  have h := pagination_clamps_and_last_page_count [] "D" "" "eligible" 3 7
  exact ⟨h.2.2.1, h.2.2.2.2.2⟩

/-- C8 — for a requested page `k ≥ 1` and page size already in `[10, 200]`
(so that clamping is the identity), the `i`-th returned row (0-based `i`,
1-based `i + 1`) carries the anonymized identifier
`"ANON-" ++ zfill5 ((k - 1) * ps + (i + 1))`: ids start at
`(k-1)*page_size + 1` on page `k` and increment by one per row, assigned by
position within the tab rather than by any stable patient identity. -/
theorem anonymized_ids_by_position (all_p : List Patient)
    (disease hospital tab : String) (k ps : ℕ) (hk : 1 ≤ k) (h10 : 10 ≤ ps)
    (h200 : ps ≤ 200) (i : ℕ)
    (hi : i < (get_eligible_patients_for_drug all_p disease hospital
      ((k : ℕ) : ℤ) ((ps : ℕ) : ℤ) tab).patients.length) :
    ((get_eligible_patients_for_drug all_p disease hospital
        ((k : ℕ) : ℤ) ((ps : ℕ) : ℤ) tab).patients.get ⟨i, hi⟩).patient_id
      = "ANON-" ++ zfill5 ((k - 1) * ps + (i + 1)) := by
  have hstart : ((max ((k : ℕ) : ℤ) 1 - 1) * min (max ((ps : ℕ) : ℤ) 10) 200).toNat
      = (k - 1) * ps := by
    have hmaxk : max ((k : ℕ) : ℤ) 1 = ((k : ℕ) : ℤ) := by omega
    have hminps : min (max ((ps : ℕ) : ℤ) 10) 200 = ((ps : ℕ) : ℤ) := by omega
    rw [hmaxk, hminps]
    have h2 : ((k : ℕ) : ℤ) - 1 = (((k - 1 : ℕ)) : ℤ) := by omega
    rw [h2, ← Nat.cast_mul, Int.toNat_natCast]
  simp only [get_eligible_patients_for_drug] at hi ⊢
  rw [List.get_eq_getElem]
  simp only [List.getElem_map, List.getElem_enum]
  rw [hstart]
  rfl

/-- Concrete instance of C8: the single eligible row on page 1 of a page of
size 10 is `ANON-00001`. -/
theorem anonymized_ids_by_position_witness :
    ((get_eligible_patients_for_drug [⟨"D", none, "", "", none, "", [], ""⟩]
        "D" "" ((1 : ℕ) : ℤ) ((10 : ℕ) : ℤ) "eligible").patients.get
      ⟨0, by decide⟩).patient_id = "ANON-00001" :=
  (anonymized_ids_by_position [⟨"D", none, "", "", none, "", [], ""⟩]
    "D" "" "eligible" 1 10 (by norm_num) (by norm_num) (by norm_num) 0
    (by decide)).trans (by decide)

/-! ## Blockchain logger (src/federated_screener/blockchain/logger.py)

The real `BlockchainLogger` in non-mock mode.  Wall-clock readings
(`int(time.time())`) are passed in as parameters; transaction submission and
receipt confirmation are modelled as a synchronous successful append to the
on-chain log (the deterministic-success execution), so the retry/backoff is
not exercised. -/

/-- The four metadata fields hashed by `compute_metadata_hash_static`. -/
structure MetadataRec where
  round_number : ℤ
  accuracy_scaled : ℤ
  model_hash : String
  timestamp : ℤ
  deriving Repr, DecidableEq

/-- The canonical serialization of `compute_metadata_hash_static`:
`json.dumps` with sorted keys and compact separators; the key order is the
alphabetical `accuracy_scaled, model_hash, round_number, timestamp`. -/
def canonicalMetadataJson (m : MetadataRec) : String :=
  "\x7b\"accuracy_scaled\":" ++ toString m.accuracy_scaled ++
    ",\"model_hash\":\"" ++ m.model_hash ++
    "\",\"round_number\":" ++ toString m.round_number ++
    ",\"timestamp\":" ++ toString m.timestamp ++ "\x7d"

/-- `compute_metadata_hash_static`: SHA-256 hex digest of the canonical JSON.
The SHA-256 primitive (a stdlib call) is abstracted by the canonical
serialization itself, a collision-free stand-in: identical field values give
the identical digest, which is the property the code relies on. -/
def compute_metadata_hash_static (m : MetadataRec) : String :=
  canonicalMetadataJson m

/-- Python `int()` applied to a float/rational: truncation toward zero. -/
def pyInt (q : ℚ) : ℤ := if 0 ≤ q then ⌊q⌋ else ⌈q⌉

/-- The on-chain accuracy scaling `int(item.accuracy * 10000)` of `_send_tx`
(and of `verify_onchain_hash`). -/
def accuracyScaled (a : ℚ) : ℤ := pyInt (a * 10000)

/-- The `_QueueItem` dataclass. -/
structure _QueueItem where
  round_number : ℤ
  accuracy : ℚ
  model_hash : String
  timestamp : ℤ
  retries : ℕ := 0
  deriving Repr, DecidableEq

/-- One record of the on-chain training log
(`roundNumber, accuracy(scaled), modelHash/metadataHash, timestamp`). -/
structure LedgerEntry where
  roundNumber : ℤ
  accuracy : ℤ
  metadataHash : String
  timestamp : ℤ
  deriving Repr, DecidableEq

instance : Inhabited LedgerEntry := ⟨⟨0, 0, "", 0⟩⟩

/-- The mutable state touched by the logger: the local `_logged_rounds` set
(as a duplicate-free list), the pending `_queue`, and the on-chain append-only
log read and written through the contract. -/
structure LoggerState where
  logged_rounds : List ℤ
  queue : List _QueueItem
  chain : List LedgerEntry
  deriving Repr, DecidableEq

/-- `set.add`: insert without duplication. -/
def insertRound (l : List ℤ) (r : ℤ) : List ℤ := if r ∈ l then l else r :: l

/-- Number of committed on-chain entries carrying round `r`. -/
def countRound (chain : List LedgerEntry) (r : ℤ) : ℕ :=
  (chain.filter (fun e => e.roundNumber = r)).length

/-- Embedding of `BlockchainLogger._send_tx`.  The advisory on-chain
duplicate pre-check reads the last committed entry (`getLog(total - 1)`) and,
on a match, adds the round to `_logged_rounds` and raises
`RuntimeError("Duplicate on-chain")` — but that raise happens inside the same
`try` whose `except Exception: pass` swallows it, so control falls through
and the transaction is built and submitted in either case.  Submission plus
successful receipt is modelled as appending the entry to the chain. -/
def _send_tx (st : LoggerState) (item : _QueueItem) : LoggerState :=
  let accuracy_scaled := accuracyScaled item.accuracy
  let metadata_hash := compute_metadata_hash_static
    ⟨item.round_number, accuracy_scaled, item.model_hash, item.timestamp⟩
  let total := st.chain.length
  let st1 := if 0 < total ∧ (st.chain.getD (total - 1) default).roundNumber = item.round_number
    then { st with logged_rounds := insertRound st.logged_rounds item.round_number }
    else st
  { st1 with chain := st1.chain ++
      [⟨item.round_number, accuracy_scaled, metadata_hash, item.timestamp⟩] }

/-- Embedding of `BlockchainLogger._process_item`: skip when the round is in
the local `_logged_rounds` set, otherwise send and, on confirmed receipt,
record the round in `_logged_rounds`. -/
def _process_item (st : LoggerState) (item : _QueueItem) : LoggerState :=
  if item.round_number ∈ st.logged_rounds then st
  else
    let st1 := _send_tx st item
    { st1 with logged_rounds := insertRound st1.logged_rounds item.round_number }

/-- The background worker draining the FIFO queue to empty
(`_worker_loop` processing every pending item once, in order). -/
def workerDrain (st : LoggerState) : LoggerState :=
  st.queue.foldl _process_item { st with queue := [] }

/-- Embedding of `BlockchainLogger.enqueue_training_metadata` in non-mock
mode: input validation, then the fast-path duplicate rejection against
`_logged_rounds`, then the queue push.  Returns the new state together with
the `(accepted, message)` pair of the source. -/
def enqueue_training_metadata (st : LoggerState) (round_number : ℤ)
    (accuracy : ℚ) (model_hash : String) (ts : ℤ) :
    LoggerState × (Bool × Option String) :=
  if round_number ≤ 0 then (st, (false, some "invalid round"))
  else if ¬(0 ≤ accuracy ∧ accuracy ≤ 1) then (st, (false, some "invalid accuracy"))
  else if model_hash.length < 8 then (st, (false, some "invalid model_hash"))
  else if round_number ∈ st.logged_rounds then (st, (false, some "duplicate"))
  else ({ st with queue := st.queue ++ [⟨round_number, accuracy, model_hash, ts, 0⟩] },
    (true, none))

/-! ### Mock ledger (`MockBlockchainLogger`) -/

/-- A mock training-log entry (`_logs` of `MockBlockchainLogger`). -/
structure TrainingEntry where
  round_number : ℤ
  accuracy : ℚ
  model_hash : String
  timestamp : ℤ
  txHash : String
  deriving Repr, DecidableEq

/-- A mock audit-trail entry (`_audit_logs`); the free-text `details` string
and open `metadata` mapping are not further modelled. -/
structure AuditEntry where
  action : String
  actor : String
  record_count : ℕ
  timestamp : ℤ
  txHash : String
  deriving Repr, DecidableEq

/-- In-memory state of `MockBlockchainLogger`. -/
structure MockState where
  _logs : List TrainingEntry
  _audit_logs : List AuditEntry
  deriving Repr, DecidableEq

/-- Embedding of `MockBlockchainLogger.enqueue_training_metadata`: appends a
training entry and a `TRAINING_ROUND` audit entry and returns
`(True, tx_hash)` — with no input validation of any kind.  The synthesized
`_generate_tx_hash` value (a digest of seed, wall time and counter) is passed
in as `tx_hash`. -/
def mock_enqueue_training_metadata (st : MockState) (round_number : ℤ)
    (accuracy : ℚ) (model_hash : String) (ts : ℤ) (tx_hash : String) :
    MockState × (Bool × Option String) :=
  ({ _logs := st._logs ++ [⟨round_number, accuracy, model_hash, ts, tx_hash⟩]
     _audit_logs := st._audit_logs ++ [⟨"TRAINING_ROUND", "FL Server", 1, ts, tx_hash⟩] },
   (true, some tx_hash))

/-- The ledger entry that `_send_tx` submits for a queue item. -/
def entryFor (item : _QueueItem) : LedgerEntry :=
  ⟨item.round_number, accuracyScaled item.accuracy,
    compute_metadata_hash_static ⟨item.round_number, accuracyScaled item.accuracy,
      item.model_hash, item.timestamp⟩, item.timestamp⟩

theorem countRound_append_single (c : List LedgerEntry) (e : LedgerEntry) (r : ℤ) :
    countRound (c ++ [e]) r
      = countRound c r + (if e.roundNumber = r then 1 else 0) := by
  simp only [countRound, List.filter_append, List.length_append]
  congr 1
  by_cases h : e.roundNumber = r <;> simp [h]

theorem lastRound_ne_of_countZero (c : List LedgerEntry) (r : ℤ)
    (h : countRound c r = 0) (hpos : 0 < c.length) :
    (c.getD (c.length - 1) default).roundNumber ≠ r := by
  have hlt : c.length - 1 < c.length := by omega
  rw [List.getD_eq_getElem?_getD, List.getElem?_eq_getElem hlt]
  simp only [Option.getD_some]
  intro heq
  have hf : c.filter (fun e => e.roundNumber = r) = [] := List.length_eq_zero.mp h
  have hmem : c.get ⟨c.length - 1, hlt⟩ ∈ c.filter (fun e => e.roundNumber = r) :=
    List.mem_filter.mpr ⟨List.get_mem c _ hlt, by simpa using heq⟩
  rw [hf] at hmem
  exact absurd hmem (List.not_mem_nil _)

theorem send_tx_fresh (st : LoggerState) (item : _QueueItem)
    (h : countRound st.chain item.round_number = 0) :
    _send_tx st item = { st with chain := st.chain ++ [entryFor item] } := by
  simp only [_send_tx, entryFor]
  rw [if_neg]
  rintro ⟨hpos, heq⟩
  exact lastRound_ne_of_countZero st.chain item.round_number h hpos heq

theorem process_item_fresh (st : LoggerState) (item : _QueueItem)
    (hlog : item.round_number ∉ st.logged_rounds)
    (hchain : countRound st.chain item.round_number = 0) :
    _process_item st item = { st with
      logged_rounds := item.round_number :: st.logged_rounds,
      chain := st.chain ++ [entryFor item] } := by
  simp only [_process_item]
  rw [if_neg hlog, send_tx_fresh st item hchain]
  simp only [insertRound]
  rw [if_neg hlog]

theorem process_item_logged (st : LoggerState) (item : _QueueItem)
    (h : item.round_number ∈ st.logged_rounds) :
    _process_item st item = st := by
  simp only [_process_item]
  rw [if_pos h]

theorem enqueue_accepts (st : LoggerState) (r : ℤ) (a : ℚ) (mh : String)
    (ts : ℤ) (hr : 0 < r) (ha : 0 ≤ a ∧ a ≤ 1) (hm : 8 ≤ mh.length)
    (hnot : r ∉ st.logged_rounds) :
    enqueue_training_metadata st r a mh ts
      = ({ st with queue := st.queue ++ [⟨r, a, mh, ts, 0⟩] }, (true, none)) := by
  simp only [enqueue_training_metadata]
  rw [if_neg (by omega), if_neg (not_not_intro ha), if_neg (by omega), if_neg hnot]

theorem enqueue_duplicate (st : LoggerState) (r : ℤ) (a : ℚ) (mh : String)
    (ts : ℤ) (hr : 0 < r) (ha : 0 ≤ a ∧ a ≤ 1) (hm : 8 ≤ mh.length)
    (hdup : r ∈ st.logged_rounds) :
    enqueue_training_metadata st r a mh ts = (st, (false, some "duplicate")) := by
  simp only [enqueue_training_metadata]
  rw [if_neg (by omega), if_neg (not_not_intro ha), if_neg (by omega), if_pos hdup]

/-- C1 — starting from a state in which a valid round `r` is neither locally
recorded nor on-chain and the queue is empty: the first
`enqueue_training_metadata` is accepted; if the worker drains the queue
before the second call, the second call is rejected with `(False,
"duplicate")` and exactly one entry for `r` is on-chain; and if instead both
calls are enqueued before the worker runs, the drain still commits exactly
one entry for `r` (the worker-side guard). -/
theorem enqueue_training_metadata_idempotent (st : LoggerState) (r : ℤ)
    (a : ℚ) (mh : String) (t1 t2 : ℤ) (hr : 0 < r) (ha : 0 ≤ a ∧ a ≤ 1)
    (hm : 8 ≤ mh.length) (hnot : r ∉ st.logged_rounds)
    (hchain : countRound st.chain r = 0) (hq : st.queue = []) :
    (enqueue_training_metadata st r a mh t1).2 = (true, none) ∧
    (enqueue_training_metadata
        (workerDrain (enqueue_training_metadata st r a mh t1).1) r a mh t2).2
      = (false, some "duplicate") ∧
    countRound (enqueue_training_metadata
        (workerDrain (enqueue_training_metadata st r a mh t1).1) r a mh t2).1.chain r
      = 1 ∧
    countRound (workerDrain (enqueue_training_metadata
        (enqueue_training_metadata st r a mh t1).1 r a mh t2).1).chain r = 1 := by
  have h1 := enqueue_accepts st r a mh t1 hr ha hm hnot
  have hfresh := process_item_fresh (LoggerState.mk st.logged_rounds [] st.chain)
    ⟨r, a, mh, t1, 0⟩ hnot hchain
  have hdrain : workerDrain ({ st with queue := st.queue ++ [⟨r, a, mh, t1, 0⟩] })
      = LoggerState.mk (r :: st.logged_rounds) [] (st.chain ++ [entryFor ⟨r, a, mh, t1, 0⟩]) := by
    simp only [workerDrain, hq, List.nil_append, List.foldl_cons, List.foldl_nil]
    exact hfresh
  have hcount1 : countRound (st.chain ++ [entryFor ⟨r, a, mh, t1, 0⟩]) r = 1 := by
    rw [countRound_append_single, hchain]
    simp [entryFor]
  have hdup2 := enqueue_duplicate
    (LoggerState.mk (r :: st.logged_rounds) [] (st.chain ++ [entryFor ⟨r, a, mh, t1, 0⟩]))
    r a mh t2 hr ha hm (List.mem_cons_self r _)
  refine ⟨by rw [h1], ?_, ?_, ?_⟩
  · rw [h1, hdrain, hdup2]
  · rw [h1, hdrain, hdup2]
    exact hcount1
  · have h2 := enqueue_accepts ({ st with queue := st.queue ++ [⟨r, a, mh, t1, 0⟩] })
      r a mh t2 hr ha hm hnot
    have hfold : List.foldl _process_item (LoggerState.mk st.logged_rounds [] st.chain)
        [⟨r, a, mh, t1, 0⟩, ⟨r, a, mh, t2, 0⟩]
        = LoggerState.mk (r :: st.logged_rounds) []
            (st.chain ++ [entryFor ⟨r, a, mh, t1, 0⟩]) := by
      rw [List.foldl_cons, hfresh, List.foldl_cons, List.foldl_nil,
        process_item_logged _ _ (List.mem_cons_self r _)]
    rw [h1, h2]
    show countRound (workerDrain (LoggerState.mk st.logged_rounds
      (st.queue ++ [⟨r, a, mh, t1, 0⟩] ++ [⟨r, a, mh, t2, 0⟩]) st.chain)).chain r = 1
    rw [hq]
    show countRound (List.foldl _process_item (LoggerState.mk st.logged_rounds [] st.chain)
      ([] ++ [⟨r, a, mh, t1, 0⟩] ++ [⟨r, a, mh, t2, 0⟩])).chain r = 1
    have hl : (([] : List _QueueItem) ++ [⟨r, a, mh, t1, 0⟩] ++ [⟨r, a, mh, t2, 0⟩])
        = [⟨r, a, mh, t1, 0⟩, ⟨r, a, mh, t2, 0⟩] := by simp
    rw [hl, hfold]
    exact hcount1

/-- Concrete instance of C1 (the spec's own example: round 5, accuracy
0.9234, hash `deadbeefdeadbeef`). -/
theorem enqueue_training_metadata_idempotent_witness :
    (enqueue_training_metadata ⟨[], [], []⟩ 5 (9234/10000) "deadbeefdeadbeef" 0).2
      = (true, none) ∧
    (enqueue_training_metadata
        (workerDrain (enqueue_training_metadata ⟨[], [], []⟩ 5 (9234/10000)
          "deadbeefdeadbeef" 0).1) 5 (9234/10000) "deadbeefdeadbeef" 1).2
      = (false, some "duplicate") ∧
    countRound (enqueue_training_metadata
        (workerDrain (enqueue_training_metadata ⟨[], [], []⟩ 5 (9234/10000)
          "deadbeefdeadbeef" 0).1) 5 (9234/10000) "deadbeefdeadbeef" 1).1.chain 5
      = 1 ∧
    countRound (workerDrain (enqueue_training_metadata
        (enqueue_training_metadata ⟨[], [], []⟩ 5 (9234/10000)
          "deadbeefdeadbeef" 0).1 5 (9234/10000) "deadbeefdeadbeef" 1).1).chain 5
      = 1 :=
  enqueue_training_metadata_idempotent ⟨[], [], []⟩ 5 (9234/10000)
    "deadbeefdeadbeef" 0 1 (by norm_num) ⟨by norm_num, by norm_num⟩
    (by decide) (List.not_mem_nil 5) rfl rfl

/-- C2 — the on-chain duplicate pre-check of `_send_tx` does NOT skip the
send: with round 7 already the last committed entry and not yet in the local
set, processing a queue item for round 7 marks the round as logged (the check
fires) and nevertheless submits a second transaction, leaving two committed
entries for round 7.  The `raise RuntimeError("Duplicate on-chain")` that was
meant to abort the submission is swallowed by the enclosing
`except Exception: pass`. -/
theorem send_tx_duplicate_check_does_not_skip_send :
    (7 ∈ (_process_item ⟨[], [], [⟨7, 5000, "h", 0⟩]⟩
      ⟨7, 1/2, "deadbeef", 1, 0⟩).logged_rounds) ∧
    countRound (_process_item ⟨[], [], [⟨7, 5000, "h", 0⟩]⟩
      ⟨7, 1/2, "deadbeef", 1, 0⟩).chain 7 = 2 := by
  constructor
  · decide
  · decide

/-- C3 (counterexample) — the scaled accuracy submitted on-chain is
`int(accuracy * 10000)`, which truncates: at `accuracy = 0.12346 ∈ [0, 1]`
it yields 1234, while `round(0.12346 * 10000) = round(1234.6) = 1235`, so the
scaled integer does not equal `round(accuracy * 10000)`. -/
theorem accuracy_scaling_truncates_not_rounds :
    ((0 : ℚ) ≤ 6173/50000 ∧ (6173/50000 : ℚ) ≤ 1) ∧
    accuracyScaled (6173/50000) ≠ roundHalfEven ((6173/50000 : ℚ) * 10000) := by
  have hq : (6173/50000 : ℚ) * 10000 = 6173/5 := by norm_num
  have hf : ⌊(6173/5 : ℚ)⌋ = 1234 := by
    rw [Int.floor_eq_iff]
    norm_num
  have h1 : accuracyScaled (6173/50000) = 1234 := by
    unfold accuracyScaled pyInt
    rw [hq, if_pos (by norm_num), hf]
  have h2 : roundHalfEven ((6173/50000 : ℚ) * 10000) = 1235 := by
    unfold roundHalfEven
    rw [hq, hf]
    rw [if_neg (by norm_num), if_pos (by norm_num)]
    decide
  refine ⟨⟨by norm_num, by norm_num⟩, ?_⟩
  rw [h1, h2]
  decide

/-- C3 (amended) — for `accuracy ∈ [0, 1]`, the scaled integer submitted
on-chain and used in the metadata hash equals the truncation
`⌊accuracy * 10000⌋` (truncation toward zero coincides with floor on
non-negative values): the entry `_send_tx` appends carries that scaled value
both in its accuracy field and inside the hashed metadata record. -/
theorem accuracy_scaled_eq_trunc (st : LoggerState) (item : _QueueItem)
    (h : 0 ≤ item.accuracy ∧ item.accuracy ≤ 1) :
    accuracyScaled item.accuracy = ⌊item.accuracy * 10000⌋ ∧
    (_send_tx st item).chain.getLast?
      = some ⟨item.round_number, ⌊item.accuracy * 10000⌋,
          compute_metadata_hash_static ⟨item.round_number, ⌊item.accuracy * 10000⌋,
            item.model_hash, item.timestamp⟩, item.timestamp⟩ := by
  have hs : accuracyScaled item.accuracy = ⌊item.accuracy * 10000⌋ := by
    unfold accuracyScaled pyInt
    rw [if_pos (mul_nonneg h.1 (by norm_num))]
  refine ⟨hs, ?_⟩
  simp only [_send_tx]
  split <;> simp only [List.getLast?_concat] <;> rw [hs]

/-- Concrete instance of C3 (amended) at the spec's example accuracy 0.9234. -/
theorem accuracy_scaled_eq_trunc_witness :
    accuracyScaled (9234/10000 : ℚ) = 9234 :=
  ((accuracy_scaled_eq_trunc ⟨[], [], []⟩ ⟨5, 9234/10000, "deadbeefdeadbeef", 0, 0⟩
    ⟨by norm_num, by norm_num⟩).1).trans (by norm_num)

/-- C4 (counterexample) — a logger that has fallen back to the mock ledger
accepts an input that is invalid on every count (`round_number = 0`,
`accuracy = 2`, `model_hash = "x"`): the call reports success and the record
enters the mock training log instead of being rejected. -/
theorem mock_enqueue_accepts_invalid_input :
    (mock_enqueue_training_metadata ⟨[], []⟩ 0 2 "x" 0 "0xmock").2
      = (true, some "0xmock") ∧
    (mock_enqueue_training_metadata ⟨[], []⟩ 0 2 "x" 0 "0xmock").1._logs.length
      = 1 := by
  constructor
  · rfl
  · rfl

/-- C4 (amended) — the real (non-mock) `enqueue_training_metadata` rejects a
non-positive round, an accuracy outside `[0, 1]`, or a model hash shorter
than 8 characters synchronously: the call returns `accepted = false` and the
state — in particular the queue — is unchanged.  The mock fallback performs
no such validation. -/
theorem enqueue_training_metadata_rejects_invalid (st : LoggerState) (r : ℤ)
    (a : ℚ) (mh : String) (ts : ℤ)
    (h : r ≤ 0 ∨ ¬(0 ≤ a ∧ a ≤ 1) ∨ mh.length < 8) :
    (enqueue_training_metadata st r a mh ts).1 = st ∧
    (enqueue_training_metadata st r a mh ts).2.1 = false := by
  simp only [enqueue_training_metadata]
  rcases h with h | h | h
  · rw [if_pos h]; exact ⟨rfl, rfl⟩
  · by_cases h1 : r ≤ 0
    · rw [if_pos h1]; exact ⟨rfl, rfl⟩
    · rw [if_neg h1, if_pos h]; exact ⟨rfl, rfl⟩
  · by_cases h1 : r ≤ 0
    · rw [if_pos h1]; exact ⟨rfl, rfl⟩
    · rw [if_neg h1]
      by_cases h2 : ¬(0 ≤ a ∧ a ≤ 1)
      · rw [if_pos h2]; exact ⟨rfl, rfl⟩
      · rw [if_neg h2, if_pos h]; exact ⟨rfl, rfl⟩

/-- Concrete instance of C4 (amended): round 0 is rejected by the real
logger. -/
theorem enqueue_training_metadata_rejects_invalid_witness :
    (enqueue_training_metadata ⟨[], [], []⟩ 0 (1/2) "deadbeef" 0).1 = ⟨[], [], []⟩ ∧
    (enqueue_training_metadata ⟨[], [], []⟩ 0 (1/2) "deadbeef" 0).2.1 = false :=
  enqueue_training_metadata_rejects_invalid ⟨[], [], []⟩ 0 (1/2) "deadbeef" 0
    (Or.inl (by norm_num))

/-! ## Audit-log throttle (_should_log_action, src/api/main.py) -/

/-- Lookup in the `_audit_last_logged` dictionary. -/
def dictGet (m : List (String × ℚ)) (k : String) : Option ℚ :=
  match m with
  | [] => none
  | (k1, v1) :: rest => if k1 = k then some v1 else dictGet rest k

/-- Assignment `_audit_last_logged[k] = v`: replace the binding if present,
append otherwise. -/
def dictSet (m : List (String × ℚ)) (k : String) (v : ℚ) : List (String × ℚ) :=
  match m with
  | [] => [(k, v)]
  | (k1, v1) :: rest => if k1 = k then (k, v) :: rest else (k1, v1) :: dictSet rest k v

/-- Embedding of `_should_log_action(action, cooldown)` from `src/api/main.py`:
`time.time()` is the explicit `now` parameter, the module-level
`_audit_last_logged` map is the explicit state, and a missing key reads as 0. -/
def _should_log_action (st : List (String × ℚ)) (action : String)
    (cooldown now : ℚ) : Bool × List (String × ℚ) :=
  if cooldown ≤ now - (dictGet st action).getD 0
  then (true, dictSet st action now)
  else (false, st)

theorem dictGet_dictSet_self (m : List (String × ℚ)) (k : String) (v : ℚ) :
    dictGet (dictSet m k v) k = some v := by
  induction m with
  | nil => simp [dictGet, dictSet]
  | cons e rest ih =>
    obtain ⟨k1, v1⟩ := e
    by_cases h : k1 = k
    · simp [dictGet, dictSet, h]
    · simp [dictGet, dictSet, h, ih]

/-- C9 — the throttle: a first call for a fresh key (given the current epoch
time is at least the cooldown, as any real clock reading is) returns true and
records `now`; a later call for the same key returns true exactly when
`cooldown` has elapsed since the last true-returning call; a false-returning
call leaves the state untouched, and a true-returning one re-records the new
time.  Instantiated at cooldown 10 this gives `(true, false)` for two calls
less than 10 apart and `true` again after the cooldown. -/
theorem should_log_action_throttle (st : List (String × ℚ)) (key : String)
    (cd now1 now2 : ℚ) (hfresh : dictGet st key = none) (hcd : cd ≤ now1) :
    _should_log_action st key cd now1 = (true, dictSet st key now1) ∧
    dictGet (dictSet st key now1) key = some now1 ∧
    ((_should_log_action (dictSet st key now1) key cd now2).1 = true
      ↔ cd ≤ now2 - now1) ∧
    (¬ cd ≤ now2 - now1 →
      _should_log_action (dictSet st key now1) key cd now2
        = (false, dictSet st key now1)) ∧
    (cd ≤ now2 - now1 →
      _should_log_action (dictSet st key now1) key cd now2
        = (true, dictSet (dictSet st key now1) key now2)) := by
  have hget := dictGet_dictSet_self st key now1
  refine ⟨?_, hget, ?_, ?_, ?_⟩
  · simp only [_should_log_action, hfresh, Option.getD_none]
    rw [if_pos (by linarith)]
  · simp only [_should_log_action, hget, Option.getD_some]
    constructor
    · intro h
      by_cases hc : cd ≤ now2 - now1
      · exact hc
      · rw [if_neg hc] at h; exact absurd h (by simp)
    · intro hc; rw [if_pos hc]
  · intro hc
    simp only [_should_log_action, hget, Option.getD_some]
    rw [if_neg hc]
  · intro hc
    simp only [_should_log_action, hget, Option.getD_some]
    rw [if_pos hc]

/-- Concrete instance of C9: key `"X"`, cooldown 10; calls at times 100, 105
and (independently) 111 give `(true, false)` and `true` again. -/
theorem should_log_action_throttle_witness :
    _should_log_action [] "X" 10 100 = (true, [("X", 100)]) ∧
    _should_log_action [("X", 100)] "X" 10 105 = (false, [("X", 100)]) ∧
    _should_log_action [("X", 100)] "X" 10 111 = (true, [("X", 111)]) := by
  have h1 := should_log_action_throttle [] "X" 10 100 105 rfl (by norm_num)
  have h2 := should_log_action_throttle [] "X" 10 100 111 rfl (by norm_num)
  exact ⟨h1.1, h1.2.2.2.1 (by norm_num), h2.2.2.2.2 (by norm_num)⟩

end FDTES
